import Mathlib

/-!
Verification of the content-registry specification of the `directories`
repository against its source data.

The repository's source (as sampled) contains two files of literal data:
`src/apps/cursor/src/data/official.ts` (the `officialRules` array of eleven
rule records and the `officialRulesSections` array) and
`src/packages/data/src/rules/s3.ts` (a loose rule document with `title`,
`tags`, `slug`, `content` and `author` fields).  The registry itself
(construction, `getBySlug`, `listByTag`, `listSections`, `search`) is not
present in the sampled source; those operations are modelled from the
specification, as marked on each definition below.
-/

/-- Structured author attribution: `name`, optional `url`, optional `avatar`,
as it appears in the `author` objects of `official.ts`. -/
structure Author where
  name : String
  url : Option String
  avatar : Option String
deriving DecidableEq

/-- An author field as it can occur in the sampled source: either a bare
string (as in `s3.ts`) or a structured object (as in `official.ts`). -/
inductive RawAuthor where
  | str : String → RawAuthor
  | obj : Author → RawAuthor
deriving DecidableEq

/-- A raw content record, with the field shape of the literals in
`official.ts`: `tags`, `libs`, `title`, `slug`, `content`, `author`. -/
structure RawRecord where
  tags : List String
  libs : List String
  title : String
  slug : String
  content : String
  author : Option RawAuthor
deriving DecidableEq

/-- `officialRules[0]` from `src/apps/cursor/src/data/official.ts`. -/
def shadcnRec : RawRecord :=
  { tags := ["UI", "Components", "Shadcn"]
    libs := []
    title := "Shadcn"
    slug := "shadcn-ui"
    content := "\n        - Write the rule\n        - Write the rule\n      "
    author := some (.obj
      { name := "shadcn"
        url := some "https://x.com/shadcn"
        avatar := some "https://pbs.twimg.com/profile_images/1593304942210478080/TUYae5z7_400x400.jpg" }) }

/-- `officialRules[1]` from `src/apps/cursor/src/data/official.ts`. -/
def expoRec : RawRecord :=
  { tags := ["Expo", "React Native"]
    libs := []
    title := "Expo"
    slug := "expo"
    content := "\n        - Write the rule\n        - Write the rule\n      "
    author := some (.obj
      { name := "Expo"
        url := some "https://x.com/expo"
        avatar := some "https://pbs.twimg.com/profile_images/1676741952014897152/j5t0mY_I_400x400.jpg" }) }

/-- `officialRules[2]` from `src/apps/cursor/src/data/official.ts`. -/
def trpcRec : RawRecord :=
  { tags := ["tRPC", "React", "Typescript"]
    libs := []
    title := "tRPC"
    slug := "trpc"
    content := "\n        - Write the rule\n        - Write the rule\n      "
    author := some (.obj
      { name := "tRPC"
        url := some "https://x.com/trpc"
        avatar := some "https://pbs.twimg.com/profile_images/1562943276142960640/8Fo_MxSb_400x400.jpg" }) }

/-- `officialRules[3]` from `src/apps/cursor/src/data/official.ts`. -/
def nextjsRec : RawRecord :=
  { tags := ["Next.js", "React", "Typescript"]
    libs := []
    title := "Next.js"
    slug := "nextjs"
    content := "\n          - Write the rule\n          - Write the rule\n        "
    author := some (.obj
      { name := "Next.js"
        url := some "https://x.com/nextjs"
        avatar := some "https://pbs.twimg.com/profile_images/1565710214019444737/if82cpbS_400x400.jpg" }) }

/-- `officialRules[4]` from `src/apps/cursor/src/data/official.ts`. -/
def honoRec : RawRecord :=
  { tags := ["Hono", "API", "Typescript"]
    libs := []
    title := "Hono"
    slug := "hono"
    content := "\n          - Write the rule\n          - Write the rule\n        "
    author := some (.obj
      { name := "Hono"
        url := some "https://x.com/honojs"
        avatar := some "https://pbs.twimg.com/profile_images/1562960963359293446/rGjvMLR1_400x400.jpg" }) }

/-- `officialRules[5]` from `src/apps/cursor/src/data/official.ts`. -/
def resendRec : RawRecord :=
  { tags := ["Resend", "Typescript"]
    libs := []
    title := "Resend - Typescript"
    slug := "resend-typescript"
    content := "\n          - Write the rule\n          - Write the rule\n        "
    author := some (.obj
      { name := "Resend"
        url := some "https://x.com/resend"
        avatar := some "https://pbs.twimg.com/profile_images/1749861436074151936/MPN32ysD_400x400.jpg" }) }

/-- `officialRules[6]` from `src/apps/cursor/src/data/official.ts`. -/
def supabaseRec : RawRecord :=
  { tags := ["Supabase"]
    libs := []
    title := "Supabase - Typescript"
    slug := "supabase-typescript"
    content := "\n          - Write the rule\n          - Write the rule\n        "
    author := some (.obj
      { name := "Supabase"
        url := some "https://x.com/supabase"
        avatar := some "https://pbs.twimg.com/profile_images/1822981431586439168/7xkKXRGQ_400x400.jpg" }) }

/-- `officialRules[7]` from `src/apps/cursor/src/data/official.ts`. -/
def triggerRec : RawRecord :=
  { tags := ["Trigger.dev"]
    libs := []
    title := "Trigger.dev - Typescript"
    slug := "trigger-dev-typescript"
    content := "\n          - Write the rule\n          - Write the rule\n        "
    author := some (.obj
      { name := "Trigger.dev"
        url := some "https://x.com/triggerdotdev"
        avatar := some "https://pbs.twimg.com/profile_images/1808152343872933889/0lQ01rz5_400x400.jpg" }) }

/-- `officialRules[8]` from `src/apps/cursor/src/data/official.ts`. -/
def vercelRec : RawRecord :=
  { tags := ["Vercel"]
    libs := []
    title := "Vercel - Typescript"
    slug := "vercel-typescript"
    content := "\n          - Write the rule\n          - Write the rule\n        "
    author := some (.obj
      { name := "Vercel"
        url := some "https://x.com/vercel"
        avatar := some "https://pbs.twimg.com/profile_images/1767351110228918272/3Pndc5OT_400x400.png" }) }

/-- `officialRules[9]` from `src/apps/cursor/src/data/official.ts`. -/
def polarRec : RawRecord :=
  { tags := ["Polar"]
    libs := []
    title := "Polar - Typescript"
    slug := "polar-typescript"
    content := "\n          - Write the rule\n          - Write the rule\n        "
    author := some (.obj
      { name := "Polar"
        url := some "https://x.com/polar_sh"
        avatar := some "https://pbs.twimg.com/profile_images/1830928297477185538/uKJNKdTI_400x400.jpg" }) }

/-- `officialRules[10]` from `src/apps/cursor/src/data/official.ts`. -/
def nuxtRec : RawRecord :=
  { tags := ["Nuxt"]
    libs := []
    title := "Nuxt - Typescript"
    slug := "nuxt-typescript"
    content := "\n          - Write the rule\n          - Write the rule\n        "
    author := some (.obj
      { name := "Nuxt"
        url := some "https://x.com/nuxt_js"
        avatar := some "https://pbs.twimg.com/profile_images/1696835964881002498/0YEYRNGF_400x400.png" }) }

/-- The exported `officialRules` array of
`src/apps/cursor/src/data/official.ts`, in source order. -/
def officialRules : List RawRecord :=
  [shadcnRec, expoRec, trpcRec, nextjsRec, honoRec, resendRec,
   supabaseRec, triggerRec, vercelRec, polarRec, nuxtRec]

/-- A section exactly as the source declares it: a `tag` and an inline
`rules` array of full record objects. -/
structure SourceSection where
  tag : String
  rules : List RawRecord
deriving DecidableEq

/-- The exported `officialRulesSections` array of
`src/apps/cursor/src/data/official.ts`. -/
def officialRulesSections : List SourceSection :=
  [{ tag := "Official", rules := officialRules }]

/-- The `slug` field declared on line 3 of
`src/packages/data/src/rules/s3.ts`. -/
def s3_slug : String := "awss3-payload-nextjs-best practices"

/-- The `author` field declared on line 92 of
`src/packages/data/src/rules/s3.ts`: a bare string, not a structured
object. -/
def s3_author : RawAuthor := .str "Liam Sherwood"

/-- URL-safety of a slug in the spec's sense: non-empty, and made only of
lowercase ASCII letters, digits and hyphens — in particular no spaces and
no uppercase letters. -/
def urlSafeSlug (s : String) : Bool :=
  s != "" && s.toList.all (fun c =>
    (97 ≤ c.toNat && c.toNat ≤ 122) || (48 ≤ c.toNat && c.toNat ≤ 57) || c == '-')

/-- An author value is structured when it is an object, not a bare string. -/
def authorStructured : RawAuthor → Bool
  | .obj _ => true
  | .str _ => false

/-- A structured author whose `name`, `url` and `avatar` are all present and
non-empty. -/
def authorFull : Option RawAuthor → Bool
  | some (.obj a) =>
      a.name != "" &&
      (match a.url with | some u => u != "" | none => false) &&
      (match a.avatar with | some v => v != "" | none => false)
  | _ => false

/-- A record with a fully populated author, non-empty `tags`, non-empty
`content` and an empty `libs` array. -/
def fullyPopulated (r : RawRecord) : Bool :=
  authorFull r.author && !r.tags.isEmpty && r.content != "" && r.libs.isEmpty

/-- Modelled from the spec: the construction-time and query-time error
taxonomy of §7 — `DuplicateSlug`, `UnknownSlugInSection`, `InvalidRecord`
(the registry implementation is not present in the sampled source). -/
inductive ConstructError where
  | DuplicateSlug : String → ConstructError
  | UnknownSlugInSection : String → String → ConstructError
  | InvalidRecord : Option String → String → ConstructError
deriving DecidableEq

/-- Modelled from the spec: a record is valid when its required fields
`slug` and `title` are non-empty (§4.1 Construction). -/
def validRecord (r : RawRecord) : Prop :=
  r.slug ≠ "" ∧ r.title ≠ ""

instance (r : RawRecord) : Decidable (validRecord r) := by
  unfold validRecord; infer_instance

/-- Modelled from the spec: one construction step — validate the record's
required fields, then fail with `DuplicateSlug` if the slug is already
present, else append the record (§4.1 Construction). -/
def insertRecord (acc : List RawRecord) (r : RawRecord) :
    Except ConstructError (List RawRecord) :=
  if r.slug = "" then .error (.InvalidRecord none "slug must be non-empty")
  else if r.title = "" then .error (.InvalidRecord (some r.slug) "title must be non-empty")
  else if acc.any (fun x => x.slug == r.slug) then .error (.DuplicateSlug r.slug)
  else .ok (acc ++ [r])

/-- Modelled from the spec: fold `insertRecord` over the input, aborting on
the first error — construction is all-or-nothing (§4.1). -/
def buildAux (acc : List RawRecord) : List RawRecord → Except ConstructError (List RawRecord)
  | [] => .ok acc
  | r :: rs =>
      match insertRecord acc r with
      | .error e => .error e
      | .ok acc2 => buildAux acc2 rs

/-- Modelled from the spec: registry construction from an ordered sequence
of raw records; on success the registry holds the records in insertion
order (§4.1 Construction). -/
def buildRegistry (rs : List RawRecord) : Except ConstructError (List RawRecord) :=
  buildAux [] rs

/-- Modelled from the spec: the result of `getBySlug` — either the found
record or an explicit `NotFound` value, returned normally (§7). -/
inductive LookupResult where
  | found : RawRecord → LookupResult
  | NotFound : LookupResult
deriving DecidableEq

/-- Modelled from the spec: `getBySlug(slug)` — exact lookup, returning
`NotFound` (never raising) when the slug is absent (§4.1 Query operations). -/
def getBySlug (reg : List RawRecord) (s : String) : LookupResult :=
  match reg.find? (fun r => r.slug == s) with
  | some r => .found r
  | none => .NotFound

/-- Modelled from the spec: `listByTag(tag)` — all records carrying that
tag, in original insertion order; empty sequence if the tag is unknown
(§4.1 Query operations). -/
def listByTag (reg : List RawRecord) (t : String) : List RawRecord :=
  reg.filter (fun r => decide (t ∈ r.tags))

/-- ASCII lowercasing of a character code, for case-insensitive matching. -/
def lowerCode (n : Nat) : Nat :=
  if 65 ≤ n ∧ n ≤ 90 then n + 32 else n

/-- The lowercased character codes of a string. -/
def lowerCodes (s : String) : List Nat :=
  s.toList.map (fun c => lowerCode c.toNat)

/-- Whether `needle` occurs at the start of `hay`. -/
def startsList : List Nat → List Nat → Bool
  | [], _ => true
  | _ :: _, [] => false
  | a :: as, b :: bs => a == b && startsList as bs

/-- Whether `needle` occurs contiguously anywhere inside `hay`. -/
def substrList (needle : List Nat) : List Nat → Bool
  | [] => needle.isEmpty
  | b :: rest => startsList needle (b :: rest) || substrList needle rest

/-- Modelled from the spec: the rank of a record for a query — `some 0` for
an exact title match, `some 1` for a title prefix match, `some 2` for an
exact tag match, `some 3` for a substring match elsewhere in title or tags,
`none` for no match; all case-insensitive (§4.1 `search`). -/
def searchRank (q : String) (r : RawRecord) : Option Nat :=
  let ql := lowerCodes q
  let tl := lowerCodes r.title
  if tl == ql then some 0
  else if startsList ql tl then some 1
  else if r.tags.any (fun t => lowerCodes t == ql) then some 2
  else if substrList ql tl || r.tags.any (fun t => substrList ql (lowerCodes t)) then some 3
  else none

/-- Modelled from the spec: `search(query)` — matching records grouped by
rank bucket (exact title, title prefix, exact tag, substring elsewhere),
ties within a bucket broken by original insertion order (§4.1 `search`). -/
def search (reg : List RawRecord) (q : String) : List RawRecord :=
  (List.range 4).flatMap (fun k => reg.filter (fun r => searchRank q r == some k))

/-- Modelled from the spec: a raw section definition referencing records by
slug (§6 external interface: `RawSection: { tag, recordSlugs }`). -/
structure RawSection where
  tag : String
  recordSlugs : List String
deriving DecidableEq

/-- Modelled from the spec: check one section — every referenced slug must
already exist in the primary index, else fail with
`UnknownSlugInSection(sectionTag, slug)` (§4.1 Construction). -/
def checkSection (reg : List RawRecord) (sec : RawSection) :
    Except ConstructError RawSection :=
  match sec.recordSlugs.find? (fun s => !reg.any (fun r => r.slug == s)) with
  | some s => .error (.UnknownSlugInSection sec.tag s)
  | none => .ok sec

/-- Modelled from the spec: section construction over an already-built
registry, aborting on the first unknown slug (§4.1 Construction). -/
def buildSections (reg : List RawRecord) :
    List RawSection → Except ConstructError (List RawSection)
  | [] => .ok []
  | sec :: rest =>
      match checkSection reg sec with
      | .error e => .error e
      | .ok s => (buildSections reg rest).map (fun l => s :: l)

/-- Modelled from the spec: the by-slug counterpart of the source's single
`Official` section, referencing each of the eleven `officialRules` records
through the primary index (§9 section-to-record association). -/
def officialSectionRaw : RawSection :=
  { tag := "Official", recordSlugs := officialRules.map (fun r => r.slug) }

/-- The set of slugs of the records of a registry. -/
def slugSet (rs : List RawRecord) : Set String :=
  setOf (fun s => ∃ r ∈ rs, r.slug = s)

/-- The set of slugs reachable by enumerating `listByTag` over every tag. -/
def taggedSlugSet (reg : List RawRecord) : Set String :=
  setOf (fun s => ∃ t, ∃ r ∈ listByTag reg t, r.slug = s)

/-- The set of slugs reachable by enumerating sections. -/
def sectionSlugSet (secs : List RawSection) : Set String :=
  setOf (fun s => ∃ sec ∈ secs, s ∈ sec.recordSlugs)

/-- A structurally valid test record carrying no tags, used to probe the
round-trip enumeration property on a registry with no sections. -/
def taglessRec : RawRecord :=
  { tags := []
    libs := []
    title := "Untagged"
    slug := "untagged"
    content := "body"
    author := none }

instance {ε α : Type} [DecidableEq ε] [DecidableEq α] : DecidableEq (Except ε α) := fun x y =>
  match x, y with
  | .ok a, .ok b =>
      if h : a = b then .isTrue (by rw [h])
      else .isFalse (by intro hc; cases hc; exact h rfl)
  | .ok _, .error _ => .isFalse (by intro hc; cases hc)
  | .error _, .ok _ => .isFalse (by intro hc; cases hc)
  | .error e, .error f =>
      if h : e = f then .isTrue (by rw [h])
      else .isFalse (by intro hc; cases hc; exact h rfl)

theorem insertRecord_ok_eq (acc : List RawRecord) (r : RawRecord)
    (acc2 : List RawRecord) (h : insertRecord acc r = .ok acc2) :
    acc2 = acc ++ [r] := by
  unfold insertRecord at h
  split at h
  · exact absurd h (by simp)
  · split at h
    · exact absurd h (by simp)
    · split at h
      · exact absurd h (by simp)
      · exact (Except.ok.inj h).symm

theorem buildAux_ok_eq (rs : List RawRecord) : ∀ acc out,
    buildAux acc rs = .ok out → out = acc ++ rs := by
  induction rs with
  | nil =>
    intro acc out h
    simp only [buildAux] at h
    cases h
    simp
  | cons r rs ih =>
    intro acc out h
    simp only [buildAux] at h
    cases hins : insertRecord acc r with
    | error e => rw [hins] at h; cases h
    | ok acc2 =>
      rw [hins] at h
      have hout := ih acc2 out h
      rw [insertRecord_ok_eq acc r acc2 hins] at hout
      simpa using hout

theorem buildAux_ok_of (rs : List RawRecord) : ∀ acc,
    (∀ r ∈ rs, validRecord r) →
    (acc ++ rs).Pairwise (fun a b => a.slug ≠ b.slug) →
    buildAux acc rs = .ok (acc ++ rs) := by
  induction rs with
  | nil => intro acc _ _; simp [buildAux]
  | cons r rs ih =>
    intro acc hv hp
    obtain ⟨hs, ht⟩ := hv r (List.mem_cons_self r rs)
    have hnd : ∀ a ∈ acc, a.slug ≠ r.slug := by
      rw [List.pairwise_append] at hp
      intro a ha
      exact hp.2.2 a ha r (List.mem_cons_self r rs)
    have hany : ¬ (acc.any (fun x => x.slug == r.slug) = true) := by
      rw [List.any_eq_true]
      rintro ⟨x, hx, hxeq⟩
      exact hnd x hx (by simpa using hxeq)
    have hins : insertRecord acc r = .ok (acc ++ [r]) := by
      unfold insertRecord
      rw [if_neg hs, if_neg ht, if_neg hany]
    simp only [buildAux]
    rw [hins]
    have hrec := ih (acc ++ [r]) (fun x hx => hv x (List.mem_cons_of_mem r hx))
      (by simpa using hp)
    show buildAux (acc ++ [r]) rs = Except.ok (acc ++ (r :: rs))
    rw [hrec]
    simp

theorem buildRegistry_ok_of_nodup (rs : List RawRecord)
    (hv : ∀ r ∈ rs, validRecord r)
    (hd : (rs.map (fun r => r.slug)).Nodup) :
    buildRegistry rs = .ok rs := by
  have hp : rs.Pairwise (fun a b => a.slug ≠ b.slug) := by
    simpa [List.Nodup, List.pairwise_map] using hd
  simpa [buildRegistry] using buildAux_ok_of rs [] hv (by simpa using hp)

theorem buildAux_dup_iff (rs : List RawRecord) : ∀ acc,
    (∀ r ∈ rs, validRecord r) →
    acc.Pairwise (fun a b => a.slug ≠ b.slug) →
    ((∃ s, buildAux acc rs = .error (.DuplicateSlug s)) ↔
      ¬ (acc ++ rs).Pairwise (fun a b => a.slug ≠ b.slug)) := by
  induction rs with
  | nil =>
    intro acc _ hacc
    simp only [buildAux, List.append_nil]
    exact iff_of_false (by rintro ⟨s, h⟩; cases h) (not_not_intro hacc)
  | cons r rs ih =>
    intro acc hv hacc
    obtain ⟨hs, ht⟩ := hv r (List.mem_cons_self r rs)
    by_cases hc : acc.any (fun x => x.slug == r.slug) = true
    · have hins : insertRecord acc r = .error (.DuplicateSlug r.slug) := by
        unfold insertRecord
        rw [if_neg hs, if_neg ht, if_pos hc]
      have hbuild : buildAux acc (r :: rs) = .error (.DuplicateSlug r.slug) := by
        simp only [buildAux]; rw [hins]
      apply iff_of_true ⟨r.slug, hbuild⟩
      obtain ⟨a, ha, haeq⟩ := List.any_eq_true.mp hc
      intro hp
      rw [List.pairwise_append] at hp
      exact hp.2.2 a ha r (List.mem_cons_self r rs) (by simpa using haeq)
    · have hnd : ∀ a ∈ acc, a.slug ≠ r.slug := by
        intro a ha heq
        exact hc (List.any_eq_true.mpr ⟨a, ha, by simp [heq]⟩)
      have hins : insertRecord acc r = .ok (acc ++ [r]) := by
        unfold insertRecord
        rw [if_neg hs, if_neg ht, if_neg hc]
      have hacc2 : (acc ++ [r]).Pairwise (fun a b => a.slug ≠ b.slug) := by
        rw [List.pairwise_append]
        refine ⟨hacc, List.pairwise_singleton _ _, ?_⟩
        intro a ha b hb
        rw [List.mem_singleton] at hb
        subst hb
        exact hnd a ha
      have hstep : buildAux acc (r :: rs) = buildAux (acc ++ [r]) rs := by
        simp only [buildAux]; rw [hins]
      rw [hstep, ih (acc ++ [r]) (fun x hx => hv x (List.mem_cons_of_mem r hx)) hacc2]
      simp

theorem find?_slug_eq (r : RawRecord) : ∀ (rs : List RawRecord),
    rs.Pairwise (fun a b => a.slug ≠ b.slug) → r ∈ rs →
    rs.find? (fun x => x.slug == r.slug) = some r := by
  intro rs
  induction rs with
  | nil => intro _ hr; cases hr
  | cons a l ih =>
    intro hd hr
    rw [List.pairwise_cons] at hd
    rcases List.mem_cons.mp hr with h | h
    · subst h
      rw [List.find?_cons_of_pos]
      simp
    · rw [List.find?_cons_of_neg]
      · exact ih hd.2 h
      · simp [hd.1 r h]

theorem buildSections_err (reg : List RawRecord) : ∀ (secs : List RawSection),
    (∃ sec ∈ secs, ∃ s ∈ sec.recordSlugs, ∀ r ∈ reg, r.slug ≠ s) →
    ∃ t s, buildSections reg secs = .error (.UnknownSlugInSection t s) := by
  intro secs
  induction secs with
  | nil => rintro ⟨sec, hsec, _⟩; cases hsec
  | cons sec0 rest ih =>
    intro h
    cases hfind : sec0.recordSlugs.find? (fun s => !reg.any (fun r => r.slug == s)) with
    | some s =>
      refine ⟨sec0.tag, s, ?_⟩
      simp only [buildSections]
      unfold checkSection
      rw [hfind]
    | none =>
      have hok : checkSection reg sec0 = .ok sec0 := by
        unfold checkSection; rw [hfind]
      have hbad : ∃ sec ∈ rest, ∃ s ∈ sec.recordSlugs, ∀ r ∈ reg, r.slug ≠ s := by
        obtain ⟨sec, hsec, s, hsmem, habs⟩ := h
        rcases List.mem_cons.mp hsec with heq | hmem
        · exfalso
          subst heq
          have hall := List.find?_eq_none.mp hfind s hsmem
          simp only [Bool.not_eq_true', Bool.not_eq_false, List.any_eq_true] at hall
          obtain ⟨r, hr, hrs⟩ := hall
          exact habs r hr (by simpa using hrs)
        · exact ⟨sec, hmem, s, hsmem, habs⟩
      obtain ⟨t, s, herr⟩ := ih hbad
      refine ⟨t, s, ?_⟩
      simp only [buildSections]
      rw [hok]
      show (buildSections reg rest).map (fun l => sec0 :: l) = _
      rw [herr]
      rfl

/-- C1: for any input sequence of valid raw records, registry construction
fails with `DuplicateSlug` if and only if the input contains two records
sharing a slug; on success the registry holds exactly the input records, so
no record is ever silently overwritten; and construction from the eleven
`officialRules` records (whose slugs are pairwise distinct) succeeds, in
particular it does not fail with `DuplicateSlug`. -/
theorem buildRegistry_duplicateSlug_iff (rs : List RawRecord)
    (hv : ∀ r ∈ rs, validRecord r) :
    ((∃ s, buildRegistry rs = .error (.DuplicateSlug s)) ↔
        ¬ (rs.map (fun r => r.slug)).Nodup)
      ∧ (∀ out, buildRegistry rs = .ok out → out = rs)
      ∧ buildRegistry officialRules = .ok officialRules := by
  refine ⟨?_, ?_, by decide⟩
  · have h := buildAux_dup_iff rs [] hv List.Pairwise.nil
    simp only [List.nil_append] at h
    have hnd : (rs.map (fun r => r.slug)).Nodup ↔
        rs.Pairwise (fun a b => a.slug ≠ b.slug) := by
      simp [List.Nodup, List.pairwise_map]
    rw [buildRegistry, h, hnd]
  · intro out hout
    simpa using buildAux_ok_eq rs [] out hout

/-- Witness for C1: the `officialRules` records are all valid, and applying
the theorem to them shows construction succeeds without overwriting. -/
theorem buildRegistry_duplicateSlug_iff_wit :
    buildRegistry officialRules = .ok officialRules :=
  (buildRegistry_duplicateSlug_iff officialRules (by decide)).2.2

/-- C2: for every input of valid records with pairwise-distinct slugs,
construction succeeds (yielding the records in insertion order), `getBySlug`
returns exactly the supplied record for every supplied slug, and returns the
`NotFound` value — a normal return of the total function, not an
exception — for every absent slug. -/
theorem getBySlug_correct (rs : List RawRecord)
    (hv : ∀ r ∈ rs, validRecord r)
    (hd : (rs.map (fun r => r.slug)).Nodup) :
    buildRegistry rs = .ok rs
      ∧ (∀ r ∈ rs, getBySlug rs r.slug = .found r)
      ∧ (∀ s, (∀ r ∈ rs, r.slug ≠ s) → getBySlug rs s = .NotFound) := by
  have hp : rs.Pairwise (fun a b => a.slug ≠ b.slug) := by
    simpa [List.Nodup, List.pairwise_map] using hd
  refine ⟨buildRegistry_ok_of_nodup rs hv hd, ?_, ?_⟩
  · intro r hr
    unfold getBySlug
    rw [find?_slug_eq r rs hp hr]
  · intro s habs
    have hnone : rs.find? (fun x => x.slug == s) = none :=
      List.find?_eq_none.mpr (by intro x hx; simp [habs x hx])
    unfold getBySlug
    rw [hnone]

/-- Witness for C2: applied to `officialRules`, whose records are valid with
pairwise-distinct slugs; `getBySlug` recovers the `expo` record and returns
`NotFound` on an absent slug. -/
theorem getBySlug_correct_wit :
    buildRegistry officialRules = .ok officialRules
      ∧ getBySlug officialRules expoRec.slug = .found expoRec
      ∧ getBySlug officialRules "zig" = .NotFound := by
  have h := getBySlug_correct officialRules (by decide) (by decide)
  exact ⟨h.1, h.2.1 expoRec (by decide), h.2.2 "zig" (by decide)⟩

/-- C3: on the two-record registry built from the `shadcn-ui` and `nextjs`
records of `officialRules`, `search "next"` returns exactly the `nextjs`
record, which matched in the title-prefix bucket (rank 1) while `shadcn-ui`
did not match at all; `listByTag "Typescript"` returns exactly the one
`nextjs` record; and `getBySlug "hono"` returns `NotFound`. -/
theorem twoRecordScenario :
    buildRegistry [shadcnRec, nextjsRec] = .ok [shadcnRec, nextjsRec]
      ∧ search [shadcnRec, nextjsRec] "next" = [nextjsRec]
      ∧ searchRank "next" nextjsRec = some 1
      ∧ searchRank "next" shadcnRec = none
      ∧ listByTag [shadcnRec, nextjsRec] "Typescript" = [nextjsRec]
      ∧ getBySlug [shadcnRec, nextjsRec] "hono" = .NotFound := by
  refine ⟨by decide, by decide, by decide, by decide, by decide, by decide⟩

/-- C4: all eleven slugs of `officialRules` are URL-safe (lowercase,
hyphen-separated, no spaces), but the slug declared in `s3.ts` is not — it
contains a space (`"awss3-payload-nextjs-best practices"`), so the claim
fails on that input. -/
theorem slug_urlSafety_check :
    officialRules.all (fun r => urlSafeSlug r.slug) = true
      ∧ urlSafeSlug s3_slug = false := by
  refine ⟨by decide, by decide⟩

/-- Counterexample for C5: the `author` field of the record in `s3.ts` is
the bare string `"Liam Sherwood"`, not a structured value. -/
theorem s3_author_not_structured : authorStructured s3_author = false := rfl

/-- C5 (amended): every record of `officialRules` that has an author field
carries a structured author object, but the `s3.ts` record's author is the
bare string `"Liam Sherwood"`. -/
theorem authors_structured_amended :
    officialRules.all (fun r =>
        match r.author with
        | some a => authorStructured a
        | none => true) = true
      ∧ s3_author = .str "Liam Sherwood" := by
  refine ⟨by decide, rfl⟩

/-- C6: for every registry and tag, `listByTag` returns a subsequence of the
registry (hence in original insertion order) whose members are exactly the
records carrying that tag, and returns the empty sequence — a normal value,
not an error — when no record carries the tag. -/
theorem listByTag_spec (reg : List RawRecord) (t : String) :
    (listByTag reg t).Sublist reg
      ∧ (∀ r, r ∈ listByTag reg t ↔ r ∈ reg ∧ t ∈ r.tags)
      ∧ ((∀ r ∈ reg, t ∉ r.tags) → listByTag reg t = []) := by
  refine ⟨List.filter_sublist reg, ?_, ?_⟩
  · intro r
    simp [listByTag, List.mem_filter]
  · intro h
    simp only [listByTag, List.filter_eq_nil_iff]
    intro r hr
    simp [h r hr]

/-- Witness for C6: on `officialRules` with tag `"Supabase"`, the membership
characterisation places the `supabase-typescript` record in the result, and
the absent tag `"Fortran"` yields the empty sequence. -/
theorem listByTag_spec_wit :
    supabaseRec ∈ listByTag officialRules "Supabase"
      ∧ listByTag officialRules "Fortran" = [] :=
  ⟨((listByTag_spec officialRules "Supabase").2.1 supabaseRec).mpr (by decide),
    (listByTag_spec officialRules "Fortran").2.2 (by decide)⟩

/-- C7: whenever some section references a slug absent from the registry,
section construction fails with an `UnknownSlugInSection` error; in
particular the section `{tag := "Official", recordSlugs := ["shadcn-ui",
"missing-slug"]}` against the two-record registry fails with
`UnknownSlugInSection "Official" "missing-slug"`. -/
theorem buildSections_unknownSlug (reg : List RawRecord) (secs : List RawSection)
    (h : ∃ sec ∈ secs, ∃ s ∈ sec.recordSlugs, ∀ r ∈ reg, r.slug ≠ s) :
    (∃ t s, buildSections reg secs = .error (.UnknownSlugInSection t s))
      ∧ buildSections [shadcnRec, nextjsRec]
          [{ tag := "Official", recordSlugs := ["shadcn-ui", "missing-slug"] }]
          = .error (.UnknownSlugInSection "Official" "missing-slug") :=
  ⟨buildSections_err reg secs h, by decide⟩

/-- Witness for C7: the concrete bad section list against the two-record
registry discharges the hypothesis and yields the construction failure. -/
theorem buildSections_unknownSlug_wit :
    ∃ t s, buildSections [shadcnRec, nextjsRec]
        [{ tag := "Official", recordSlugs := ["shadcn-ui", "missing-slug"] }]
        = .error (.UnknownSlugInSection t s) :=
  (buildSections_unknownSlug [shadcnRec, nextjsRec]
    [{ tag := "Official", recordSlugs := ["shadcn-ui", "missing-slug"] }]
    (by decide)).1

/-- Counterexample for C8: a registry built from one valid record with no
tags and an empty section list constructs successfully, yet enumerating all
records through `listByTag` (over every tag) and through the sections
recovers no slug at all, so the union is strictly smaller than the slug set
of the input. -/
theorem roundTrip_cex :
    buildRegistry [taglessRec] = .ok [taglessRec]
      ∧ buildSections [taglessRec] [] = .ok []
      ∧ ¬ (taggedSlugSet [taglessRec] ∪ sectionSlugSet [] = slugSet [taglessRec]) := by
  refine ⟨by decide, by decide, ?_⟩
  intro hEq
  have hmem : "untagged" ∈ slugSet [taglessRec] :=
    ⟨taglessRec, by simp, rfl⟩
  rw [← hEq] at hmem
  rcases hmem with hmem | hmem
  · obtain ⟨t, r, hr, _⟩ := hmem
    simp [listByTag, taglessRec] at hr
  · obtain ⟨sec, hsec, _⟩ := hmem
    cases hsec

/-- C8 (amended): for every registry together with successfully
constructible sections (every referenced slug resolves), if each record
either carries at least one tag or is referenced by some section, then the
union of the slugs reachable through `listByTag` and through the sections is
exactly the slug set of the input — no slug lost, none invented. -/
theorem roundTrip_amended (reg : List RawRecord) (secs : List RawSection)
    (hsec : ∀ sec ∈ secs, ∀ s ∈ sec.recordSlugs, ∃ r ∈ reg, r.slug = s)
    (hcov : ∀ r ∈ reg, r.tags ≠ [] ∨ ∃ sec ∈ secs, r.slug ∈ sec.recordSlugs) :
    taggedSlugSet reg ∪ sectionSlugSet secs = slugSet reg := by
  ext s
  constructor
  · intro hs
    rcases hs with hs | hs
    · obtain ⟨t, r, hr, hrs⟩ := hs
      exact ⟨r, List.mem_of_mem_filter hr, hrs⟩
    · obtain ⟨sec, hsecmem, hsmem⟩ := hs
      exact hsec sec hsecmem s hsmem
  · rintro ⟨r, hr, rfl⟩
    rcases hcov r hr with htags | ⟨sec, hsecmem, hslug⟩
    · left
      obtain ⟨t, ht⟩ := List.exists_mem_of_ne_nil r.tags htags
      exact ⟨t, r, by simp [listByTag, List.mem_filter, hr, ht], rfl⟩
    · right
      exact ⟨sec, hsecmem, hslug⟩

/-- Witness for C8 (amended): on the sampled data — the eleven
`officialRules` records and the by-slug `Official` section — the two
enumerations together cover exactly the eleven slugs. -/
theorem roundTrip_amended_wit :
    taggedSlugSet officialRules ∪ sectionSlugSet [officialSectionRaw]
      = slugSet officialRules :=
  roundTrip_amended officialRules [officialSectionRaw] (by decide) (by decide)

/-- C9: `officialRulesSections` contains exactly one section, whose tag is
`"Official"` and whose `rules` field is the `officialRules` array itself,
embedded inline in the same order — so every `officialRules` record belongs
to precisely this section and the section introduces no other record. -/
theorem officialRulesSections_structure :
    officialRulesSections.length = 1
      ∧ officialRulesSections = [{ tag := "Official", rules := officialRules }] :=
  ⟨rfl, rfl⟩

/-- C10: each of the eleven `officialRules` records has an author object
with non-empty `name`, `url` and `avatar`, a non-empty tag list, non-empty
content, and an empty `libs` array. -/
theorem officialRules_fullyPopulated :
    officialRules.length = 11 ∧ officialRules.all fullyPopulated = true := by
  refine ⟨rfl, by decide⟩
